import Mathlib

/-!
Shallow embedding of the chord-analyzer core.

Sources embedded:
  - src/utils/midi_generator.py : CHORD_ROOT_MAP, CHORD_TYPE_MAP, parse_chord,
    chords_to_midi (the note-building part and the "need at least 2 notes" guard;
    the actual file write is I/O and is not modelled).
  - src/utils/chord_analyzer.py : ChordAnalyzer._analyze_chord_statistics and the
    orchestration part of ChordAnalyzer.analyze_audio_file (from the point where
    the recognizer output has been coerced to a list of (float, float, str) triples).
  - src/pages/advanced_analysis.py : the local computations of
    render_chord_pattern_analysis (change ratio) and render_musical_features
    (longest streak), on the filtered valid-label list.

Times are modelled as rationals (the Python floats are only carried through,
never arithmetically combined except for the displayed ratios). Python string
operations str.strip / str.upper / str.split(sep, 1) are modelled character-wise
so that they compute by kernel reduction; the labels involved are ASCII.
-/

/-- Model of Python str.lstrip for the default whitespace characters,
on a character list. -/
def strip_left : List Char → List Char
  | [] => []
  | c :: rest => if c.isWhitespace then strip_left rest else c :: rest

/-- Model of Python str.strip (both ends) on a String. -/
def strip_str (s : String) : String :=
  ⟨(strip_left (strip_left s.data.reverse).reverse)⟩

/-- Model of Python str.upper on a String (ASCII labels). -/
def upper_str (s : String) : String := ⟨s.data.map Char.toUpper⟩

/-- Split a character list at the first occurrence of sep: model of
Python s.split(sep, 1) when sep occurs (returns the parts before and after). -/
def split_first (sep : Char) : List Char → Option (List Char × List Char)
  | [] => none
  | c :: rest =>
    if c = sep then some ([], rest)
    else (split_first sep rest).map (fun p => (c :: p.1, p.2))

/-- CHORD_ROOT_MAP of src/utils/midi_generator.py, as an insertion-ordered
association list (the Python dict has pairwise distinct keys). -/
def CHORD_ROOT_MAP : List (String × Nat) :=
  [("C", 60), ("C#", 61), ("Db", 61), ("D", 62), ("D#", 63), ("Eb", 63),
   ("E", 64), ("F", 65), ("F#", 66), ("Gb", 66), ("G", 67), ("G#", 68), ("Ab", 68),
   ("A", 69), ("A#", 70), ("Bb", 70), ("B", 71)]

/-- CHORD_TYPE_MAP of src/utils/midi_generator.py. -/
def CHORD_TYPE_MAP : List (String × List Nat) :=
  [("", [0, 4, 7]),
   ("maj", [0, 4, 7]),
   ("min", [0, 3, 7]),
   ("m", [0, 3, 7]),
   ("dim", [0, 3, 6]),
   ("aug", [0, 4, 8]),
   ("7", [0, 4, 7, 10]),
   ("maj7", [0, 4, 7, 11]),
   ("m7", [0, 3, 7, 10])]

/-- parse_chord of src/utils/midi_generator.py, on the string case (inside
chords_to_midi it is always applied to the label string of a segment, so the
tuple branch of the Python function is never taken there). Splits on the
first colon, strips and upper-cases the root, strips the quality. -/
def parse_chord (chord : String) : String × String :=
  match split_first ':' chord.data with
  | some rt => (upper_str (strip_str ⟨rt.1⟩), strip_str ⟨rt.2⟩)
  | none => (upper_str (strip_str chord), "")

/-- A pretty_midi.Note as built by chords_to_midi: velocity, pitch, start, end. -/
structure Note where
  pitch : Nat
  velocity : Nat
  start : ℚ
  «end» : ℚ
deriving Repr, DecidableEq

/-- One segment of the chord timeline: (start, end, label), as the Python code
represents it (a 3-tuple). -/
abbrev Seg : Type := ℚ × ℚ × String

/-- The notes contributed by one chord segment in the loop of chords_to_midi
(src/utils/midi_generator.py lines 73-87): empty label and the "N" sentinel are
skipped, unknown roots are skipped, unknown qualities fall back to
CHORD_TYPE_MAP[''] = [0,4,7], and one note per interval is emitted at
velocity 80 spanning the segment's start and end. -/
def segment_notes (seg : Seg) : List Note :=
  let start := seg.1
  let stop := seg.2.1
  let chord := seg.2.2
  if chord = "" ∨ chord = "N" then []
  else
    match List.lookup (parse_chord chord).1 CHORD_ROOT_MAP with
    | none => []
    | some root_note =>
      ((List.lookup (parse_chord chord).2 CHORD_TYPE_MAP).getD [0, 4, 7]).map
        (fun i => { pitch := root_note + i, velocity := 80, start := start, «end» := stop })

/-- chords_to_midi of src/utils/midi_generator.py, up to the point where the
note list is handed to pretty_midi (the file write is I/O): returns none
exactly when the guard `len(notes) < 2` fires (the Python function then warns
and returns None), otherwise the ordered note list. The tempo argument is
accepted as in the source and, as there, never read. -/
def chords_to_midi (chord_segments : List Seg) (tempo : Nat) : Option (List Note) :=
  let notes := (chord_segments.map segment_notes).flatten
  if notes.length < 2 then none else some notes

/-- The statistics dict built by ChordAnalyzer._analyze_chord_statistics. -/
structure ChordStats where
  total_chords : Nat
  unique_chords : Nat
  most_common_chord : Option String
  most_common_count : Nat
  chord_distribution : List (String × Nat)
deriving Repr, DecidableEq

/-- One step of `chord_counts[label_str] += 1 / = 1`: a Python dict update
preserves the position of an existing key and appends a new key at the end. -/
def bump_count : List (String × Nat) → String → List (String × Nat)
  | [], l => [(l, 1)]
  | (k, v) :: rest, l =>
    if k = l then (k, v + 1) :: rest else (k, v) :: bump_count rest l

/-- The chord_counts loop of _analyze_chord_statistics, with explicit
accumulator: count every stripped label that is non-empty and not "nan". -/
def chord_counts_from (acc : List (String × Nat)) : List Seg → List (String × Nat)
  | [] => acc
  | seg :: rest =>
    let l := strip_str seg.2.2
    if l ≠ "" ∧ l ≠ "nan" then chord_counts_from (bump_count acc l) rest
    else chord_counts_from acc rest

/-- chord_counts as built by _analyze_chord_statistics from the segment list. -/
def chord_counts (chords : List Seg) : List (String × Nat) :=
  chord_counts_from [] chords

/-- One comparison step of Python max(items, key=lambda x: x[1]): the running
best is replaced only when the new count is strictly greater. -/
def pick_max (best y : String × Nat) : String × Nat :=
  if y.2 > best.2 then y else best

/-- Python max(items, key=lambda x: x[1]) over a nonempty association list:
keeps the first element, replacing it only on a strictly greater count, so the
first maximum in iteration order wins. -/
def max_by_count (l : List (String × Nat)) : Option (String × Nat) :=
  match l with
  | [] => none
  | x :: rest => some (rest.foldl pick_max x)

/-- ChordAnalyzer._analyze_chord_statistics (src/utils/chord_analyzer.py lines
61-87): returns none for the empty input (the Python method returns the empty
dict {}), otherwise the statistics record; most_common is (None, 0) when no
label is valid. total_chords is len(chords), the length of the whole input. -/
def analyze_chord_statistics (chords : List Seg) : Option ChordStats :=
  if chords = [] then none
  else
    let counts := chord_counts chords
    let mc := (max_by_count counts).elim ((none : Option String), 0)
      (fun p => (some p.1, p.2))
    some { total_chords := chords.length
           unique_chords := counts.length
           most_common_chord := mc.1
           most_common_count := mc.2
           chord_distribution := counts }

/-- The analysis-result dict of ChordAnalyzer.analyze_audio_file. -/
structure AnalysisResult where
  chords : List Seg
  statistics : Option ChordStats
  duration : ℚ
deriving Repr, DecidableEq

/-- The orchestration part of ChordAnalyzer.analyze_audio_file
(src/utils/chord_analyzer.py lines 41-56), from the point where the recognizer
output has been coerced to the typed triple list `chords`: if that list is
empty the method warns and returns None, otherwise it packages the list, its
statistics and the end time of the last segment. -/
def analyze_audio_file (chords : List Seg) : Option AnalysisResult :=
  if chords = [] then none
  else some { chords := chords
              statistics := analyze_chord_statistics chords
              duration := ((chords.getLast?).map (fun s => s.2.1)).getD 0 }

/-- The valid_chords list computed in render_chord_pattern_analysis and
render_musical_features (src/pages/advanced_analysis.py lines 112 and 215):
stripped labels of the segments whose stripped label is non-empty and not
"nan". -/
def valid_chords (chords : List Seg) : List String :=
  chords.filterMap (fun seg =>
    let l := strip_str seg.2.2
    if l ≠ "" ∧ l ≠ "nan" then some l else none)

/-- The changes count of render_chord_pattern_analysis (line 142): number of
positions i > 0 with valid_chords[i] != valid_chords[i-1]. -/
def count_changes : List String → Nat
  | [] => 0
  | [_] => 0
  | a :: b :: rest => (if b ≠ a then 1 else 0) + count_changes (b :: rest)

/-- The change_ratio of render_chord_pattern_analysis (line 143):
changes / (len(valid_chords) - 1) when there is more than one valid chord,
else 0. -/
def change_ratio (valid : List String) : ℚ :=
  if valid.length > 1 then (count_changes valid : ℚ) / ((valid.length : ℚ) - 1)
  else 0

/-- The streak loop of render_musical_features (lines 245-259), with the loop
state (current_chord, max_streak, current_streak) explicit; the final
comparison after the loop is the [] case. -/
def max_streak_loop (current : String) (maxS curS : Nat) : List String → Nat
  | [] => if curS > maxS then curS else maxS
  | c :: rest =>
    if c = current then max_streak_loop current maxS (curS + 1) rest
    else max_streak_loop c (if curS > maxS then curS else maxS) 1 rest

/-- The longest-run metric of render_musical_features: defined only when the
valid-chord list is nonempty (the Python code is guarded by
`if valid_chords:`). -/
def max_streak (valid : List String) : Option Nat :=
  match valid with
  | [] => none
  | c :: rest => some (max_streak_loop c 1 1 rest)

/-- Six equal-length segments carrying the label sequence C C G G G N, the
concrete input of the spec's pattern-analysis example. -/
def ccgggn_segments : List Seg :=
  [(0, 1, "C"), (1, 2, "C"), (2, 3, "G"), (3, 4, "G"), (4, 5, "G"), (5, 6, "N")]

/-- Every nonempty note list produced for a single segment has at least 3
elements: every interval list in CHORD_TYPE_MAP, and the default [0,4,7],
has length at least 3. -/
theorem segment_notes_nil_or_three (seg : Seg) :
    segment_notes seg = [] ∨ 3 ≤ (segment_notes seg).length := by
  rw [segment_notes]
  split
  · exact Or.inl rfl
  · cases hroot : List.lookup (parse_chord seg.2.2).1 CHORD_ROOT_MAP with
    | none => exact Or.inl rfl
    | some root_note =>
      refine Or.inr ?_
      rw [List.length_map]
      cases hq : List.lookup (parse_chord seg.2.2).2 CHORD_TYPE_MAP with
      | none => simp
      | some iv =>
        have hall : ∀ p ∈ CHORD_TYPE_MAP, 3 ≤ p.2.length := by decide
        obtain ⟨l1, l2, he, -⟩ := List.lookup_eq_some_iff.mp hq
        have hmem : ((parse_chord seg.2.2).2, iv) ∈ CHORD_TYPE_MAP := by
          rw [he]; exact List.mem_append_right _ (List.mem_cons_self _ _)
        simpa using hall _ hmem

/-- C1 (amended): for every nonempty input, the total_chords field of the
computed statistics equals the length of the whole input list, invalid
segments included. -/
theorem total_chords_counts_all_segments (chords : List Seg) (s : ChordStats)
    (h : analyze_chord_statistics chords = some s) :
    s.total_chords = chords.length := by
  simp only [analyze_chord_statistics] at h
  split at h
  · exact absurd h (by simp)
  · injection h with h
    subst h
    rfl

/-- Witness for total_chords_counts_all_segments at the one-segment input
whose label is "nan". -/
theorem total_chords_counts_all_segments_witness :
    (⟨1, 0, none, 0, []⟩ : ChordStats).total_chords = [((0:ℚ), 1, "nan")].length :=
  total_chords_counts_all_segments [((0:ℚ), 1, "nan")] ⟨1, 0, none, 0, []⟩ rfl

/-- C1 (counterexample): total_chords does not equal the number of valid
segments: on the one-segment input labelled "nan", total_chords is 1 while
the valid-segment count is 0. -/
theorem total_chords_is_not_valid_count :
    ¬ ∀ (chords : List Seg) (s : ChordStats),
        analyze_chord_statistics chords = some s →
        s.total_chords = (valid_chords chords).length := by
  intro hall
  have h := hall [((0:ℚ), 1, "nan")] ⟨1, 0, none, 0, []⟩ rfl
  exact absurd h (by decide)

/-- C2 (amended): chords_to_midi fails exactly when fewer than 2 note events
were produced across the whole sequence, and a segment that contributes any
notes at all contributes at least 3 of them, so a single successfully parsed
chord segment already passes the guard. -/
theorem midi_two_note_guard (segs : List Seg) (tempo : Nat) :
    (chords_to_midi segs tempo = none ↔
      ((segs.map segment_notes).flatten).length < 2) ∧
    (∀ seg : Seg, segment_notes seg ≠ [] → 3 ≤ (segment_notes seg).length) := by
  constructor
  · simp only [chords_to_midi]
    split
    · simp_all
    · simp_all
  · intro seg hne
    rcases segment_notes_nil_or_three seg with h | h
    · exact absurd h hne
    · exact h

/-- Witness for midi_two_note_guard at a single C:maj segment. -/
theorem midi_two_note_guard_witness :
    (chords_to_midi [((0:ℚ), 2, "C:maj")] 100 = none ↔
      (([((0:ℚ), 2, "C:maj")] : List Seg).map segment_notes).flatten.length < 2) ∧
    3 ≤ (segment_notes ((0:ℚ), 2, "C:maj")).length :=
  ⟨(midi_two_note_guard [((0:ℚ), 2, "C:maj")] 100).1,
   (midi_two_note_guard [((0:ℚ), 2, "C:maj")] 100).2 ((0:ℚ), 2, "C:maj")
     (by intro h; exact absurd h (by decide))⟩

/-- C2 (counterexample): a sequence with exactly one valid chord segment does
not fail: a single C:maj segment yields 3 notes and chords_to_midi returns
them instead of the failure value none. -/
theorem single_valid_chord_midi_succeeds :
    chords_to_midi [((0:ℚ), 2, "C:maj")] 100 =
      some [⟨60, 80, 0, 2⟩, ⟨64, 80, 0, 2⟩, ⟨67, 80, 0, 2⟩] := rfl

/-- C3: parse("D:maj") does give root pitch 62 and intervals {0,4,7}, and
"Xb:maj" is an unknown root; but "Bb:min" is upper-cased to root "BB", which
is not a key of CHORD_ROOT_MAP even though the table itself contains the
entry ("Bb", 70), so the chord is skipped instead of sounding root 70 with
intervals {0,3,7}. -/
theorem flat_root_upper_case_lookup_misses :
    parse_chord "D:maj" = ("D", "maj") ∧
    List.lookup "D" CHORD_ROOT_MAP = some 62 ∧
    List.lookup "maj" CHORD_TYPE_MAP = some [0, 4, 7] ∧
    parse_chord "Bb:min" = ("BB", "min") ∧
    List.lookup "BB" CHORD_ROOT_MAP = none ∧
    ("Bb", 70) ∈ CHORD_ROOT_MAP ∧
    List.lookup "min" CHORD_TYPE_MAP = some [0, 3, 7] ∧
    segment_notes ((0:ℚ), 1, "Bb:min") = [] ∧
    parse_chord "Xb:maj" = ("XB", "maj") ∧
    List.lookup "XB" CHORD_ROOT_MAP = none :=
  ⟨by decide, by decide, by decide, by decide, by decide,
   by decide, by decide, rfl, by decide, by decide⟩

/-- C4 (amended): analyze_audio_file fails exactly when the coerced segment
list is empty; in particular the empty input fails, but a nonempty input
whose labels are all invalid does not. -/
theorem analysis_fails_iff_empty_input (chords : List Seg) :
    analyze_audio_file chords = none ↔ chords = [] := by
  simp only [analyze_audio_file]
  split
  · simp_all
  · simp_all

/-- C4 (counterexample): a nonempty sequence whose only label is "nan" has
zero valid segments yet analyze_audio_file returns a result, not the failure
value none. -/
theorem analysis_of_all_invalid_input_succeeds :
    analyze_audio_file [((0:ℚ), 1, "nan")] =
      some ⟨[((0:ℚ), 1, "nan")], some ⟨1, 0, none, 0, []⟩, 1⟩ ∧
    valid_chords [((0:ℚ), 1, "nan")] = [] :=
  ⟨rfl, by decide⟩

/-- C5: synthesizing two C:maj segments yields exactly 6 notes, pitches
60, 64, 67 for each window, velocity 80, each spanning its own segment's
start and end, in segment order and ascending interval order. -/
theorem cmaj_pair_synthesis (s1 e1 s2 e2 : ℚ) (tempo : Nat) :
    chords_to_midi [(s1, e1, "C:maj"), (s2, e2, "C:maj")] tempo =
      some [⟨60, 80, s1, e1⟩, ⟨64, 80, s1, e1⟩, ⟨67, 80, s1, e1⟩,
            ⟨60, 80, s2, e2⟩, ⟨64, 80, s2, e2⟩, ⟨67, 80, s2, e2⟩] := rfl

/-- C6: on the segment list with labels C C G G G N, the longest streak is 3,
the change ratio is 2/5 (the "N" sentinel is a valid label and counts in the
denominator), and the most common label with its count is ("G", 3). -/
theorem pattern_metrics_ccgggn :
    max_streak (valid_chords ccgggn_segments) = some 3 ∧
    change_ratio (valid_chords ccgggn_segments) = 2 / 5 ∧
    max_by_count (chord_counts ccgggn_segments) = some ("G", 3) := by
  have hv : valid_chords ccgggn_segments = ["C", "C", "G", "G", "G", "N"] := by decide
  refine ⟨by rw [hv]; decide, ?_, by decide⟩
  rw [hv]
  have hc : count_changes ["C", "C", "G", "G", "G", "N"] = 2 := by decide
  simp only [change_ratio, hc, List.length_cons, List.length_nil]
  norm_num

/-- C8: the tempo argument of chords_to_midi has no effect on the produced
note events: two runs with different tempi give identical results. -/
theorem tempo_noninterference (segs : List Seg) (t1 t2 : Nat) :
    chords_to_midi segs t1 = chords_to_midi segs t2 := rfl

/-- The running best of the Python max never has a smaller count than the
value it started from. -/
theorem le_foldl_pick_max (x : String × Nat) (rest : List (String × Nat)) :
    x.2 ≤ (rest.foldl pick_max x).2 := by
  induction rest generalizing x with
  | nil => exact Nat.le_refl _
  | cons y rest ih =>
    rw [List.foldl_cons]
    refine Nat.le_trans ?_ (ih (pick_max x y))
    simp only [pick_max]
    split
    · omega
    · exact Nat.le_refl _

/-- The result of the Python max over a nonempty list is the first element of
the list attaining the maximal count: everything strictly before it in the
list has a strictly smaller count, and everything after it has a count that
is no larger. -/
theorem foldl_pick_max_first (x : String × Nat) (rest : List (String × Nat)) :
    ∃ l1 l2, x :: rest = l1 ++ (rest.foldl pick_max x) :: l2 ∧
      (∀ q ∈ l1, q.2 < (rest.foldl pick_max x).2) ∧
      (∀ q ∈ l2, q.2 ≤ (rest.foldl pick_max x).2) := by
  induction rest generalizing x with
  | nil => exact ⟨[], [], rfl, by simp, by simp⟩
  | cons y rest ih =>
    rw [List.foldl_cons]
    by_cases hy : y.2 > x.2
    · have hpm : pick_max x y = y := if_pos hy
      obtain ⟨l1, l2, heq, h1, h2⟩ := ih (pick_max x y)
      have hle : (pick_max x y).2 ≤ (rest.foldl pick_max (pick_max x y)).2 :=
        le_foldl_pick_max _ _
      have hpm2 : (pick_max x y).2 = y.2 := by rw [hpm]
      refine ⟨x :: l1, l2, ?_, ?_, h2⟩
      · rw [List.cons_append, ← heq, hpm]
      · intro q hq
        rcases List.mem_cons.mp hq with hq | hq
        · subst hq
          omega
        · exact h1 q hq
    · have hpm : pick_max x y = x := if_neg hy
      obtain ⟨l1, l2, heq, h1, h2⟩ := ih (pick_max x y)
      rw [hpm] at heq h1 h2 ⊢
      set m := rest.foldl pick_max x with hm
      cases l1 with
      | nil =>
        simp only [List.nil_append] at heq
        injection heq with hx hrest
        refine ⟨[], y :: rest, ?_, by simp, ?_⟩
        · rw [List.nil_append, ← hx]
        · intro q hq
          rcases List.mem_cons.mp hq with hq | hq
          · subst hq
            rw [← hx]
            omega
          · exact h2 q (hrest ▸ hq)
      | cons a l1 =>
        rw [List.cons_append] at heq
        injection heq with hx hrest
        have hax : x.2 < m.2 := by
          have ha := h1 a (List.mem_cons_self _ _)
          have hx2 : x.2 = a.2 := by rw [hx]
          omega
        refine ⟨x :: y :: l1, l2, ?_, ?_, h2⟩
        · rw [hrest]
          simp [List.cons_append]
        · intro q hq
          rcases List.mem_cons.mp hq with hq | hq
          · subst hq
            exact hax
          · rcases List.mem_cons.mp hq with hq | hq
            · subst hq
              omega
            · exact h1 q (List.mem_cons_of_mem _ hq)

/-- C7: the most_common pair of the computed statistics is an entry of the
distribution with the maximal count, and among the entries sharing that
count it is the first one in distribution-construction order: every entry
strictly before it counts strictly fewer occurrences. -/
theorem most_common_is_first_max (chords : List Seg) (s : ChordStats)
    (h : analyze_chord_statistics chords = some s) (lbl : String)
    (hl : s.most_common_chord = some lbl) :
    ∃ l1 l2, s.chord_distribution = l1 ++ (lbl, s.most_common_count) :: l2 ∧
      (∀ q ∈ l1, q.2 < s.most_common_count) ∧
      (∀ q ∈ l2, q.2 ≤ s.most_common_count) := by
  simp only [analyze_chord_statistics] at h
  split at h
  · exact absurd h (by simp)
  · injection h with h
    subst h
    dsimp only at hl ⊢
    cases hcc : chord_counts chords with
    | nil =>
      rw [hcc] at hl
      simp [max_by_count, Option.elim] at hl
    | cons x rest =>
      rw [hcc] at hl
      simp only [max_by_count, Option.elim] at hl ⊢
      injection hl with hl
      obtain ⟨l1, l2, heq, h1, h2⟩ := foldl_pick_max_first x rest
      refine ⟨l1, l2, ?_, h1, h2⟩
      rw [← hl, Prod.mk.eta]
      exact heq

/-- Witness for most_common_is_first_max: on segments labelled G then C the
distribution is [(G,1), (C,1)] and the tie is broken in favour of G, the
first-inserted label, not the lexicographically smaller C. -/
theorem most_common_is_first_max_witness :
    ∃ l1 l2, ([("G", 1), ("C", 1)] : List (String × Nat)) = l1 ++ ("G", 1) :: l2 ∧
      (∀ q ∈ l1, q.2 < 1) ∧
      (∀ q ∈ l2, q.2 ≤ 1) :=
  most_common_is_first_max [((0:ℚ), 1, "G"), ((1:ℚ), 2, "C")]
    ⟨2, 2, some "G", 1, [("G", 1), ("C", 1)]⟩ rfl "G" rfl

/-- When no segment carries a valid label, the counting loop of
_analyze_chord_statistics leaves its accumulator untouched. -/
theorem chord_counts_from_no_valid (chords : List Seg) (hv : valid_chords chords = [])
    (acc : List (String × Nat)) : chord_counts_from acc chords = acc := by
  induction chords generalizing acc with
  | nil => rfl
  | cons seg rest ih =>
    by_cases hcond : strip_str seg.2.2 ≠ "" ∧ strip_str seg.2.2 ≠ "nan"
    · exfalso
      simp only [valid_chords, List.filterMap_cons, if_pos hcond] at hv
      exact List.cons_ne_nil _ _ hv
    · have hrest : valid_chords rest = [] := by
        simpa only [valid_chords, List.filterMap_cons, if_neg hcond] using hv
      simp only [chord_counts_from, if_neg hcond]
      exact ih hrest acc

/-- C9: a nonempty input with no valid label still yields statistics instead
of a failure: the distribution is empty, there are zero unique chords, the
most common chord is None with count 0, and total_chords is the full input
length. -/
theorem stats_of_no_valid_labels (chords : List Seg) (hne : chords ≠ [])
    (hv : valid_chords chords = []) :
    analyze_chord_statistics chords = some ⟨chords.length, 0, none, 0, []⟩ := by
  have hcc : chord_counts chords = [] := chord_counts_from_no_valid chords hv []
  simp only [analyze_chord_statistics, if_neg hne, hcc]
  rfl

/-- Witness for stats_of_no_valid_labels at the one-segment input labelled
"nan". -/
theorem stats_of_no_valid_labels_witness :
    analyze_chord_statistics [((0:ℚ), 1, "nan")] = some ⟨1, 0, none, 0, []⟩ :=
  stats_of_no_valid_labels [((0:ℚ), 1, "nan")] (by decide) (by decide)

/-- Every pitch handed out by CHORD_ROOT_MAP lies between 60 and 71, every
interval of CHORD_TYPE_MAP is at most 11, and every note a single segment
contributes has velocity 80 and a pitch that is a table root plus a table
interval. -/
theorem segment_notes_mem_bounds (seg : Seg) (n : Note) (hn : n ∈ segment_notes seg) :
    n.velocity = 80 ∧
    (∃ p ∈ CHORD_ROOT_MAP, ∃ i ∈ CHORD_TYPE_MAP.flatMap (fun q => q.2),
      n.pitch = p.2 + i) ∧
    60 ≤ n.pitch ∧ n.pitch ≤ 82 := by
  simp only [segment_notes] at hn
  split at hn
  · simp at hn
  · cases hroot : List.lookup (parse_chord seg.2.2).1 CHORD_ROOT_MAP with
    | none =>
      rw [hroot] at hn
      simp at hn
    | some root_note =>
      rw [hroot] at hn
      obtain ⟨l1, l2, he, -⟩ := List.lookup_eq_some_iff.mp hroot
      have hpmem : ((parse_chord seg.2.2).1, root_note) ∈ CHORD_ROOT_MAP := by
        rw [he]; exact List.mem_append_right _ (List.mem_cons_self _ _)
      have hroot_bounds : ∀ p ∈ CHORD_ROOT_MAP, 60 ≤ p.2 ∧ p.2 ≤ 71 := by decide
      have hint_bounds : ∀ j ∈ CHORD_TYPE_MAP.flatMap (fun q => q.2), j ≤ 11 := by decide
      obtain ⟨i, hi, rfl⟩ := List.mem_map.mp hn
      have himem : i ∈ CHORD_TYPE_MAP.flatMap (fun q => q.2) := by
        cases hq : List.lookup (parse_chord seg.2.2).2 CHORD_TYPE_MAP with
        | none =>
          rw [hq] at hi
          simp only [Option.getD] at hi
          exact List.mem_flatMap.mpr ⟨("", [0, 4, 7]), by decide, hi⟩
        | some iv =>
          rw [hq] at hi
          simp only [Option.getD] at hi
          obtain ⟨m1, m2, hem, -⟩ := List.lookup_eq_some_iff.mp hq
          have hqmem : ((parse_chord seg.2.2).2, iv) ∈ CHORD_TYPE_MAP := by
            rw [hem]; exact List.mem_append_right _ (List.mem_cons_self _ _)
          exact List.mem_flatMap.mpr ⟨((parse_chord seg.2.2).2, iv), hqmem, hi⟩
      have h1 := hroot_bounds _ hpmem
      have h2 := hint_bounds _ himem
      refine ⟨rfl, ⟨_, hpmem, i, himem, rfl⟩, ?_, ?_⟩
      · simp only []
        omega
      · simp only []
        omega

/-- C10: every note emitted by chords_to_midi has velocity exactly 80 and a
pitch that is a CHORD_ROOT_MAP root plus a CHORD_TYPE_MAP interval, hence
between 60 and 82 and in particular a valid MIDI pitch (at most 127). -/
theorem midi_notes_in_range (segs : List Seg) (tempo : Nat) (notes : List Note)
    (h : chords_to_midi segs tempo = some notes) (n : Note) (hn : n ∈ notes) :
    n.velocity = 80 ∧
    (∃ p ∈ CHORD_ROOT_MAP, ∃ i ∈ CHORD_TYPE_MAP.flatMap (fun q => q.2),
      n.pitch = p.2 + i) ∧
    60 ≤ n.pitch ∧ n.pitch ≤ 82 ∧ n.pitch ≤ 127 := by
  simp only [chords_to_midi] at h
  split at h
  · exact absurd h (by simp)
  · injection h with h
    subst h
    obtain ⟨l, hl, hnl⟩ := List.mem_flatten.mp hn
    obtain ⟨seg, -, rfl⟩ := List.mem_map.mp hl
    obtain ⟨hvel, hpitch, hlo, hhi⟩ := segment_notes_mem_bounds seg n hnl
    exact ⟨hvel, hpitch, hlo, hhi, by omega⟩

/-- Witness for midi_notes_in_range at the first note of a two-segment C:maj
sequence. -/
theorem midi_notes_in_range_witness :
    (⟨60, 80, 0, 1⟩ : Note).velocity = 80 ∧
    (∃ p ∈ CHORD_ROOT_MAP, ∃ i ∈ CHORD_TYPE_MAP.flatMap (fun q => q.2),
      (⟨60, 80, 0, 1⟩ : Note).pitch = p.2 + i) ∧
    60 ≤ (⟨60, 80, 0, 1⟩ : Note).pitch ∧ (⟨60, 80, 0, 1⟩ : Note).pitch ≤ 82 ∧
    (⟨60, 80, 0, 1⟩ : Note).pitch ≤ 127 :=
  midi_notes_in_range [((0:ℚ), 1, "C:maj"), ((1:ℚ), 2, "C:maj")] 100
    [⟨60, 80, 0, 1⟩, ⟨64, 80, 0, 1⟩, ⟨67, 80, 0, 1⟩,
     ⟨60, 80, 1, 2⟩, ⟨64, 80, 1, 2⟩, ⟨67, 80, 1, 2⟩] rfl
    ⟨60, 80, 0, 1⟩ (List.mem_cons_self _ _)
